import Mathlib

/-!
# Verification of the ellycache refresh-and-serve cache engine

A shallow embedding of the core of `ellycache` (a scheduled-refresh query
cache for PostgreSQL with a built-in HTTP server), faithful to `main.go`
and `model.go`:

* the row serializer and content fingerprinter (`query` in `main.go`,
  using the xxhash-64 digest and Go's `encoding/json` marshaling),
* result construction (`makeResult`),
* the refresh job (`Job.Run`) acting on the cache (`sync.Map`) and the
  filesystem of encrypted temporary files,
* the serving path (`httpHandler`).

Machine integers are modelled as `Nat`/`Int` with explicit reduction
modulo `2 ^ 64` where Go's `uint64` overflow semantics matter.
-/

set_option maxRecDepth 100000

namespace Ellycache

/-! ## 64-bit arithmetic helpers (Go `uint64` semantics) -/

/-- `2 ^ 64`, the modulus of Go's `uint64` arithmetic. -/
def M64 : Nat := 18446744073709551616

/-- Addition of `uint64` values (wraps around). -/
def add64 (a b : Nat) : Nat := (a + b) % M64

/-- Multiplication of `uint64` values (wraps around). -/
def mul64 (a b : Nat) : Nat := (a * b) % M64

/-- Left rotation of a 64-bit value by `n` bits. -/
def rotl64 (x n : Nat) : Nat := ((x <<< n) % M64) ||| (x >>> (64 - n))

/-! ## XXH64 (github.com/cespare/xxhash/v2, seed 0)

The 64-bit fingerprint used by `query` in `main.go`
(`digest := xxhash.New(); digest.Write(j); digest.Sum64()`). -/

/-- XXH64 prime 1. -/
def xxPrime1 : Nat := 11400714785074694791
/-- XXH64 prime 2. -/
def xxPrime2 : Nat := 14029467366897019727
/-- XXH64 prime 3. -/
def xxPrime3 : Nat := 1609587929392839161
/-- XXH64 prime 4. -/
def xxPrime4 : Nat := 9650029242287828579
/-- XXH64 prime 5. -/
def xxPrime5 : Nat := 2870177450012600261

/-- The XXH64 accumulator round. -/
def xxRound (acc lane : Nat) : Nat :=
  mul64 (rotl64 (add64 acc (mul64 lane xxPrime2)) 31) xxPrime1

/-- The XXH64 merge round used after the stripe loop. -/
def xxMergeRound (h v : Nat) : Nat :=
  add64 (mul64 (Nat.xor h (xxRound 0 v)) xxPrime1) xxPrime4

/-- The XXH64 final avalanche. -/
def xxAvalanche (h0 : Nat) : Nat :=
  let h1 := Nat.xor h0 (h0 >>> 33)
  let h2 := mul64 h1 xxPrime2
  let h3 := Nat.xor h2 (h2 >>> 29)
  let h4 := mul64 h3 xxPrime3
  Nat.xor h4 (h4 >>> 32)

/-- Little-endian read of a list of bytes as one unsigned integer. -/
def leNat (bs : List Nat) : Nat :=
  bs.foldr (fun b acc => b + 256 * acc) 0

/-- State of the four XXH64 stripe accumulators. -/
structure XXAcc where
  v1 : Nat
  v2 : Nat
  v3 : Nat
  v4 : Nat

/-- The XXH64 stripe loop: consume 32-byte stripes while at least 32 bytes
remain.  Structural recursion on a fuel argument (call with `fuel` at least
the length of the input) so that the definition reduces in the kernel. -/
def xxStripes (fuel : Nat) (a : XXAcc) (bs : List Nat) : XXAcc × List Nat :=
  match fuel with
  | 0 => (a, bs)
  | fuel + 1 =>
    if bs.length ≥ 32 then
      let a' : XXAcc :=
        { v1 := xxRound a.v1 (leNat (bs.take 8))
          v2 := xxRound a.v2 (leNat ((bs.drop 8).take 8))
          v3 := xxRound a.v3 (leNat ((bs.drop 16).take 8))
          v4 := xxRound a.v4 (leNat ((bs.drop 24).take 8)) }
      xxStripes fuel a' (bs.drop 32)
    else (a, bs)

/-- The XXH64 tail loop: consume 8-byte words, then one 4-byte word, then
single bytes.  Structural recursion on fuel (call with fuel above the input
length). -/
def xxTail (fuel : Nat) (h : Nat) (bs : List Nat) : Nat :=
  match fuel with
  | 0 => h
  | fuel + 1 =>
    if bs.length ≥ 8 then
      let k := xxRound 0 (leNat (bs.take 8))
      xxTail fuel (add64 (mul64 (rotl64 (Nat.xor h k) 27) xxPrime1) xxPrime4) (bs.drop 8)
    else if bs.length ≥ 4 then
      xxTail fuel
        (add64 (mul64 (rotl64 (Nat.xor h (mul64 (leNat (bs.take 4)) xxPrime1)) 23) xxPrime2)
          xxPrime3)
        (bs.drop 4)
    else
      match bs with
      | [] => h
      | b :: rest =>
        xxTail fuel (mul64 (rotl64 (Nat.xor h (mul64 b xxPrime5)) 11) xxPrime1) rest

/-- XXH64 with seed 0 over a byte list (each element `< 256`), as computed
by `xxhash.New()`/`digest.Sum64()` in `query`. -/
def xxh64 (bs : List Nat) : Nat :=
  let n := bs.length
  let hrest :=
    if n ≥ 32 then
      let start : XXAcc :=
        { v1 := add64 xxPrime1 xxPrime2
          v2 := xxPrime2
          v3 := 0
          v4 := M64 - xxPrime1 }
      let sr := xxStripes n start bs
      let a := sr.1
      let h0 := add64 (add64 (add64 (rotl64 a.v1 1) (rotl64 a.v2 7)) (rotl64 a.v3 12))
        (rotl64 a.v4 18)
      let h1 := xxMergeRound (xxMergeRound (xxMergeRound (xxMergeRound h0 a.v1) a.v2) a.v3) a.v4
      (h1, sr.2)
    else (xxPrime5, bs)
  xxAvalanche (xxTail (n + 1) (add64 hrest.1 n) hrest.2)

/-- UTF-8 encoding of one Unicode code point. -/
def utf8Bytes (n : Nat) : List Nat :=
  if n < 128 then [n]
  else if n < 2048 then [192 + n / 64, 128 + n % 64]
  else if n < 65536 then [224 + n / 4096, 128 + n / 64 % 64, 128 + n % 64]
  else [240 + n / 262144, 128 + n / 4096 % 64, 128 + n / 64 % 64, 128 + n % 64]

/-- UTF-8 bytes of a string, as `Nat`s (Go strings are byte strings holding
UTF-8 text; the digest and the HTTP body both operate on these bytes). -/
def strBytes (s : String) : List Nat :=
  s.data.flatMap (fun c => utf8Bytes c.toNat)

example : xxh64 [] = 0xef46db3751d8e999 := by rfl
example : xxh64 (strBytes "a") = 0xd24ec4f1a98c6e5b := by rfl
example : xxh64 (strBytes "Nobody inspects the spammish repetition") = 0xfbcea83c8a378bf1 := by
  rfl

/-! ## Hex formatting (Go `fmt.Sprintf("%x", h)` on a `uint64`) -/

/-- One lowercase hex digit. -/
def hexDigit (n : Nat) : String :=
  String.singleton ("0123456789abcdef".data.getD n '0')

/-- Hex digits of `n`, most significant first, empty for 0 (fuel-based so it
reduces in the kernel; 64 digits of fuel is ample for a `uint64`). -/
def hexCore (fuel n : Nat) : String :=
  match fuel with
  | 0 => ""
  | fuel + 1 => if n = 0 then "" else hexCore fuel (n / 16) ++ hexDigit (n % 16)

/-- Go's `%x` of a `uint64`: minimal lowercase hex, `"0"` for zero. -/
def toHex (n : Nat) : String :=
  if n = 0 then "0" else hexCore 64 n

/-- The weak validator built by `makeResult`:
`fmt.Sprintf("W/\"%x\"", h)`. -/
def etagOf (h : Nat) : String := "W/\"" ++ toHex h ++ "\""

example : toHex 0xef46db3751d8e999 = "ef46db3751d8e999" := by rfl
example : toHex 0 = "0" := by rfl
example : etagOf 255 = "W/\"ff\"" := by rfl

/-! ## JSON marshaling (Go `encoding/json` on the values of a row)

`query` obtains each row's column values from pgx (`rows.Values()`) and
marshals either the value slice (`rowformat=array`) or a
`map[string]any` keyed by column name (any other row format).  The model
covers text and integer column values, which is what the claims exercise.
Go's `json.Marshal` escapes `"` `\\` control characters and (by default)
`<` `>` `&` U+2028 U+2029, and serializes maps with keys in ascending
(byte-wise) order, later duplicate keys having overwritten earlier ones. -/

/-- A column value as handed to `json.Marshal`. -/
inductive JValue where
  | jstr (s : String)
  | jnum (n : Int)
deriving DecidableEq, Repr

/-- Go `encoding/json` string escaping for one character (default encoder,
HTML escaping on). -/
def escChar (c : Char) : String :=
  if c = '"' then "\\\""
  else if c = '\\' then "\\\\"
  else if c = '\n' then "\\n"
  else if c = '\r' then "\\r"
  else if c = '\t' then "\\t"
  else if c = '<' then "\\u003c"
  else if c = '>' then "\\u003e"
  else if c = '&' then "\\u0026"
  else if c.toNat < 32 then "\\u00" ++ hexDigit (c.toNat / 16) ++ hexDigit (c.toNat % 16)
  else if c.toNat = 8232 then "\\u2028"
  else if c.toNat = 8233 then "\\u2029"
  else String.singleton c

/-- A marshaled JSON string literal. -/
def jsonString (s : String) : String :=
  "\"" ++ String.join (s.data.map escChar) ++ "\""

/-- `json.Marshal` of one column value. -/
def marshalValue : JValue → String
  | .jstr s => jsonString s
  | .jnum n => toString n

/-- Go map assignment `m[k] = v` on an association list with distinct keys:
replace the binding if the key is present, otherwise add it. -/
def mapSet (m : List (String × JValue)) (k : String) (v : JValue) :
    List (String × JValue) :=
  if m.any (fun p => p.1 = k) then
    m.map (fun p => if p.1 = k then (k, v) else p)
  else m ++ [(k, v)]

/-- The map built by `query` for an object-format row:
`for i, v := range values { m[columns[i]] = v }`. -/
def buildRowMap (cols : List String) (vals : List JValue) :
    List (String × JValue) :=
  (List.zip cols vals).foldl (fun m p => mapSet m p.1 p.2) []

/-- Byte-wise (shortlex-free, lexicographic) comparison, Go's `<=` on
strings viewed as byte sequences. -/
def bytesLe : List Nat → List Nat → Bool
  | [], _ => true
  | _ :: _, [] => false
  | a :: as, b :: bs => if a < b then true else if b < a then false else bytesLe as bs

/-- Go string comparison (byte-wise over the UTF-8 bytes). -/
def strLe (a b : String) : Bool := bytesLe (strBytes a) (strBytes b)

/-- Insert one pair into a key-sorted pair list. -/
def insertSorted (p : String × JValue) :
    List (String × JValue) → List (String × JValue)
  | [] => [p]
  | q :: rest => if strLe p.1 q.1 then p :: q :: rest else q :: insertSorted p rest

/-- Sort pairs by key (Go's `json.Marshal` emits map keys in ascending
byte-wise order; for UTF-8 this coincides with code-point order). -/
def sortPairs : List (String × JValue) → List (String × JValue)
  | [] => []
  | p :: rest => insertSorted p (sortPairs rest)

/-- `json.Marshal` of the value slice (`rowformat=array`). -/
def marshalArrayRow (vals : List JValue) : String :=
  "[" ++ String.intercalate "," (vals.map marshalValue) ++ "]"

/-- `json.Marshal` of the column-name-keyed map (object row format). -/
def marshalObjRow (cols : List String) (vals : List JValue) : String :=
  "\x7b" ++
    String.intercalate ","
      ((sortPairs (buildRowMap cols vals)).map
        (fun p => jsonString p.1 ++ ":" ++ marshalValue p.2)) ++
  "\x7d"

/-- The marshaled JSON of one row, as produced inside `query`'s row loop:
`row = values` when `e.RowFormat == "array"`, else the keyed map. -/
def marshalRow (fmt : String) (cols : List String) (vals : List JValue) :
    String :=
  if fmt = "array" then marshalArrayRow vals else marshalObjRow cols vals

/-- The bytes written to the sink by `query`: `"[\n"`, then each marshaled
row indented by two spaces and separated by `",\n"`, then `"\n]\n"`. -/
def serializeBody (fmt : String) (cols : List String)
    (rows : List (List JValue)) : String :=
  "[\n" ++
    String.intercalate ",\n" (rows.map (fun r => "  " ++ marshalRow fmt cols r)) ++
  "\n]\n"

/-- The bytes fed to the fingerprint digest by `query`: exactly the
marshaled rows (`digest.Write(j)`), with none of the list punctuation. -/
def digestInput (fmt : String) (cols : List String)
    (rows : List (List JValue)) : String :=
  String.join (rows.map (marshalRow fmt cols))

/-- The 64-bit content fingerprint returned by `query`. -/
def queryDigest (fmt : String) (cols : List String)
    (rows : List (List JValue)) : Nat :=
  xxh64 (strBytes (digestInput fmt cols rows))

example :
    marshalRow "object" ["col1", "col2"] [.jstr "a", .jnum 1] =
      "\x7b\"col1\":\"a\",\"col2\":1\x7d" := by rfl
example :
    marshalRow "array" ["col1", "col2"] [.jstr "a", .jnum 1] = "[\"a\",1]" := by rfl
example :
    serializeBody "object" ["col1", "col2"] [[.jstr "a", .jnum 1]] =
      "[\n  \x7b\"col1\":\"a\",\"col2\":1\x7d\n]\n" := by rfl
example : serializeBody "array" [] [] = "[\n\n]\n" := by rfl
example :
    marshalObjRow ["b", "a"] [.jnum 1, .jnum 2] = "\x7b\"a\":2,\"b\":1\x7d" := by rfl

/-! ## Time model

Times are nanoseconds since the Unix epoch, as `Int`.  `Job.Run` computes
`int(crond.Entry(j.entryID).Next.Sub(time.Now()).Seconds())` for the
`max-age` directive, and
`time.Now().Truncate(time.Second).In(time.UTC).Format(http.TimeFormat)`
for `Last-Modified`.  Go's `Time.Sub` saturates at the `int64` bounds of
`time.Duration`; when the cron scheduler has no next fire time,
`Entry.Next` is the zero `time.Time` (January 1, year 1 UTC). -/

/-- Nanoseconds per second. -/
def nsPerSec : Int := 1000000000

/-- Minimum Go `time.Duration` (`int64` minimum, nanoseconds). -/
def minDuration : Int := -9223372036854775808

/-- Maximum Go `time.Duration` (`int64` maximum, nanoseconds). -/
def maxDuration : Int := 9223372036854775807

/-- Go `Time.Sub` saturation to the `time.Duration` range. -/
def satDur (x : Int) : Int :=
  if x < minDuration then minDuration else if maxDuration < x then maxDuration else x

/-- The zero `time.Time` (Jan 1, year 1 UTC) in Unix nanoseconds. -/
def zeroTimeNs : Int := -62135596800 * nsPerSec

/-- The cron entry's next fire time in Unix nanoseconds: the zero time when
the scheduler cannot supply one. -/
def nextFireNs : Option Int → Int
  | some n => n
  | none => zeroTimeNs

/-- The value placed in `max-age` by `Job.Run`:
`int(Next.Sub(now).Seconds())` — seconds truncated toward zero, on the
saturated duration.  Not clamped to be non-negative. -/
def maxAgeOf (next : Option Int) (nowNs : Int) : Int :=
  Int.tdiv (satDur (nextFireNs next - nowNs)) nsPerSec

/-- Two-digit zero-padded decimal. -/
def pad2 (n : Nat) : String := if n < 10 then "0" ++ toString n else toString n

/-- Weekday names, indexed with 0 = Sunday. -/
def weekdayName (n : Nat) : String :=
  ["Sun", "Mon", "Tue", "Wed", "Thu", "Fri", "Sat"].getD n "Sun"

/-- Month names, indexed from 1 = January. -/
def monthName (n : Nat) : String :=
  ["Jan", "Feb", "Mar", "Apr", "May", "Jun",
   "Jul", "Aug", "Sep", "Oct", "Nov", "Dec"].getD (n - 1) "Jan"

/-- `time.Time.Format(http.TimeFormat)` after truncation to whole seconds,
in UTC: `"Mon, 02 Jan 2006 15:04:05 GMT"`.  The civil date is recovered
from the day number with the standard Gregorian era decomposition. -/
def fmtHTTPTime (ns : Int) : String :=
  let sec : Int := Int.fdiv ns nsPerSec
  let days : Int := Int.fdiv sec 86400
  let sod : Nat := (Int.emod sec 86400).toNat
  let wd : Nat := (Int.emod (days + 4) 7).toNat
  let z : Int := days + 719468
  let era : Int := Int.fdiv z 146097
  let doe : Nat := (Int.emod z 146097).toNat
  let yoe : Nat := (doe - doe / 1460 + doe / 36524 - doe / 146096) / 365
  let y : Int := (yoe : Int) + era * 400
  let doy : Nat := doe - (365 * yoe + yoe / 4 - yoe / 100)
  let mp : Nat := (5 * doy + 2) / 153
  let d : Nat := doy - (153 * mp + 2) / 5 + 1
  let m : Nat := if mp < 10 then mp + 3 else mp - 9
  let yr : Int := if m ≤ 2 then y + 1 else y
  weekdayName wd ++ ", " ++ pad2 d ++ " " ++ monthName m ++ " " ++ toString yr ++ " " ++
    pad2 (sod / 3600) ++ ":" ++ pad2 (sod / 60 % 60) ++ ":" ++ pad2 (sod % 60) ++ " GMT"

example : fmtHTTPTime 0 = "Thu, 01 Jan 1970 00:00:00 GMT" := by rfl
example : fmtHTTPTime (1731561000 * nsPerSec) = "Thu, 14 Nov 2024 05:10:00 GMT" := by rfl
example : fmtHTTPTime (1731561808 * nsPerSec + 123456789) =
    "Thu, 14 Nov 2024 05:23:28 GMT" := by rfl

/-! ## The data model (`model.go`) and cache/filesystem state -/

/-- One `endpoint` block of the configuration (`EndpointConfig` in
`model.go`). -/
structure EndpointConfig where
  Path : String
  SQL : String
  SQLTimeout : String
  Schedule : String
  RowFormat : String
  FileBacked : Bool
deriving DecidableEq, Repr

/-- The `rowformat` clause of `EndpointConfig.Validate` (`model.go`
lines 106-108): valid iff empty, `"array"` or `"object"`. -/
def rowFormatOK (s : String) : Bool :=
  s = "" || s = "array" || s = "object"

/-- A published cache entry (`EndpointResult` in `model.go`; the unused
`ValidUntil` field is omitted).  `Result` holds the in-memory payload
bytes; `File` is non-empty iff the payload lives in an encrypted file. -/
structure EndpointResult where
  QueriedAt : String
  CacheControl : String
  ETag : String
  Result : String
  File : String
deriving DecidableEq, Repr

/-- The cache (`var cache sync.Map`), as a map from endpoint path to the
current entry. -/
def Cache : Type := String → Option EndpointResult

/-- `cache.Load(k)`. -/
def Cache.load (c : Cache) (k : String) : Option EndpointResult := c k

/-- `cache.Swap(k, v)`: store `v`, return the previous value. -/
def Cache.swap (c : Cache) (k : String) (v : EndpointResult) :
    Cache × Option EndpointResult :=
  (fun k' => if k' = k then some v else c k', c k)

/-- `cache.LoadAndDelete(k)`: delete the key, return the previous value. -/
def Cache.loadAndDelete (c : Cache) (k : String) :
    Cache × Option EndpointResult :=
  (fun k' => if k' = k then none else c k', c k)

/-- What the serving path can observe of one on-disk blob: the file is
absent, or present but not decryptable to a payload (e.g. a partial write
abandoned by a failed refresh), or present holding a payload that
round-trips through `symmecrypt` encryption (the `EncryptedBlobStore`
collaborator guarantees the round-trip). -/
inductive BlobState where
  | absent
  | corrupt
  | plaintext (content : String)
deriving DecidableEq, Repr

/-- The filesystem of temporary blob files, by file name. -/
def FS : Type := String → BlobState

/-- Write or overwrite one blob. -/
def FS.write (fs : FS) (name : String) (b : BlobState) : FS :=
  fun n => if n = name then b else fs n

/-- `os.Remove` of one blob (idempotent in effect; a failed removal of an
already-absent file is only logged). -/
def FS.remove (fs : FS) (name : String) : FS := FS.write fs name .absent

/-- The whole mutable state the refresh and serving paths touch. -/
structure SysState where
  cache : Cache
  fs : FS

/-! ## The refresh path (`makeResult` and `Job.Run` in `main.go`) -/

/-- The outcome of running the endpoint's SQL query: an error (connection
failure, timeout, row-read error, or row marshaling error), or column
metadata plus the rows, in order. -/
inductive QueryOutcome where
  | qerr
  | ok (cols : List String) (rows : List (List JValue))

/-- `makeResult` (`main.go` lines 258-280): for a file-backed endpoint,
create a temporary file named `tmpName` and stream the encrypted
serialization into it; on query error the partial file stays behind on
disk (nothing removes it) and no result is returned.  For an in-memory
endpoint, serialize into a buffer.  On success the entry carries the weak
ETag over the fingerprint and exactly one of payload/file. -/
def makeResult (e : EndpointConfig) (outcome : QueryOutcome) (tmpName : String)
    (fs : FS) : Option EndpointResult × FS :=
  if e.FileBacked then
    match outcome with
    | .qerr => (none, fs.write tmpName .corrupt)
    | .ok cols rows =>
      (some { QueriedAt := "", CacheControl := "",
              ETag := etagOf (queryDigest e.RowFormat cols rows),
              Result := "", File := tmpName },
       fs.write tmpName (.plaintext (serializeBody e.RowFormat cols rows)))
  else
    match outcome with
    | .qerr => (none, fs)
    | .ok cols rows =>
      (some { QueriedAt := "", CacheControl := "",
              ETag := etagOf (queryDigest e.RowFormat cols rows),
              Result := serializeBody e.RowFormat cols rows, File := "" },
       fs)

/-- The `cleanOld` helper inside `Job.Run`: delete the displaced entry's
backing file, if it has one. -/
def cleanOld (fs : FS) (old : EndpointResult) : FS :=
  if old.File = "" then fs else fs.remove old.File

/-- `Job.Run` (`main.go` lines 215-255).  `nowNs` is the time at which the
query completed; `next` is the cron entry's next fire time (none when the
scheduler cannot supply one).  On query failure the endpoint's entry is
removed from the cache (`LoadAndDelete`) and its backing file deleted; on
success the published entry gets the `Last-Modified` string and the
`max-age` directive and replaces the previous entry (`Swap`), whose
backing file is then deleted. -/
def jobRun (e : EndpointConfig) (outcome : QueryOutcome) (tmpName : String)
    (nowNs : Int) (next : Option Int) (st : SysState) : SysState :=
  let mr := makeResult e outcome tmpName st.fs
  match mr.1 with
  | none =>
    let ld := st.cache.loadAndDelete e.Path
    match ld.2 with
    | some old => { cache := ld.1, fs := cleanOld mr.2 old }
    | none => { cache := ld.1, fs := mr.2 }
  | some r0 =>
    let r : EndpointResult :=
      { r0 with
        QueriedAt := fmtHTTPTime nowNs
        CacheControl := "max-age=" ++ toString (maxAgeOf next nowNs) ++ ", immutable" }
    let sw := st.cache.swap e.Path r
    match sw.2 with
    | some old => { cache := sw.1, fs := cleanOld mr.2 old }
    | none => { cache := sw.1, fs := mr.2 }

/-! ## The serving path (`httpHandler` in `main.go`) -/

/-- The response fields `httpHandler` controls: status code, the headers it
sets, and the body bytes. -/
structure HResponse where
  code : Nat
  etag : Option String
  lastModified : Option String
  cacheControl : Option String
  contentType : Option String
  body : String
deriving DecidableEq, Repr

/-- `Cache-Control` for the 404 and storage-fault responses. -/
def noStore : String := "no-cache, no-store"

/-- The body written by Go's `http.NotFound`. -/
def notFoundBody : String := "404 page not found\n"

/-- The body written by `http.Error(w, "Internal Server Error", 500)`. -/
def internalErrorBody : String := "Internal Server Error\n"

/-- The full 404 response: `Cache-Control: no-cache, no-store` is set
before `http.NotFound`, which writes a fixed plain-text body carrying no
internal detail. -/
def notFoundResponse : HResponse :=
  { code := 404, etag := none, lastModified := none, cacheControl := some noStore,
    contentType := some "text/plain; charset=utf-8", body := notFoundBody }

/-- The full 500 response for a blob open/decrypt failure: fixed
plain-text body carrying no internal detail (the file name and the error
go to the log, not the client). -/
def serverErrorResponse : HResponse :=
  { code := 500, etag := none, lastModified := none, cacheControl := some noStore,
    contentType := some "text/plain; charset=utf-8", body := internalErrorBody }

/-- `httpHandler` (`main.go` lines 353-420) for a `GET` of `path` with the
given `If-None-Match` header value. -/
def httpHandler (st : SysState) (path : String) (ifNoneMatch : String) :
    HResponse :=
  match st.cache.load path with
  | none => notFoundResponse
  | some result =>
    if ifNoneMatch = result.ETag then
      { code := 304, etag := some result.ETag, lastModified := some result.QueriedAt,
        cacheControl := some result.CacheControl, contentType := none, body := "" }
    else if result.File = "" then
      { code := 200, etag := some result.ETag, lastModified := some result.QueriedAt,
        cacheControl := some result.CacheControl,
        contentType := some "application/json", body := result.Result }
    else
      match st.fs result.File with
      | .absent => serverErrorResponse
      | .corrupt => serverErrorResponse
      | .plaintext c =>
        { code := 200, etag := some result.ETag, lastModified := some result.QueriedAt,
          cacheControl := some result.CacheControl,
          contentType := some "application/json", body := c }

/-! ## Concrete fixtures used by witnesses and counterexamples -/

/-- An in-memory endpoint with object row format. -/
def epMem : EndpointConfig :=
  { Path := "/m", SQL := "select c1, c2 from t", SQLTimeout := "", Schedule := "*/5 * * * *",
    RowFormat := "object", FileBacked := false }

/-- A file-backed endpoint with object row format. -/
def epFile : EndpointConfig :=
  { Path := "/f", SQL := "select c1, c2 from t", SQLTimeout := "", Schedule := "*/5 * * * *",
    RowFormat := "object", FileBacked := true }

/-- The initial state: empty cache, no blob files. -/
def st0 : SysState := { cache := fun _ => none, fs := fun _ => .absent }

/-- The scenario rows of the spec: one row `("a", 1)`. -/
def rowsA1 : List (List JValue) := [[.jstr "a", .jnum 1]]

/-- The scenario column metadata: `col1`, `col2`. -/
def colsC12 : List String := ["col1", "col2"]

/-- A fixed "query completed" instant. -/
def tNow : Int := 1731561000 * nsPerSec

/-- A next fire time 300 seconds after `tNow`. -/
def tNext : Int := (1731561000 + 300) * nsPerSec

example :
    httpHandler (jobRun epMem (.ok colsC12 rowsA1) "" tNow (some tNext) st0) "/m" "" =
      { code := 200, etag := some "W/\"4598223d08c4dd54\"",
        lastModified := some "Thu, 14 Nov 2024 05:10:00 GMT",
        cacheControl := some "max-age=300, immutable",
        contentType := some "application/json",
        body := "[\n  \x7b\"col1\":\"a\",\"col2\":1\x7d\n]\n" } := by rfl

example :
    httpHandler (jobRun epFile (.ok colsC12 rowsA1) "/tmp/elly1" tNow (some tNext) st0)
        "/f" "W/\"4598223d08c4dd54\"" =
      { code := 304, etag := some "W/\"4598223d08c4dd54\"",
        lastModified := some "Thu, 14 Nov 2024 05:10:00 GMT",
        cacheControl := some "max-age=300, immutable",
        contentType := none, body := "" } := by rfl

example :
    httpHandler (jobRun epFile (.ok colsC12 rowsA1) "/tmp/elly1" tNow (some tNext) st0)
        "/f" "" =
      { code := 200, etag := some "W/\"4598223d08c4dd54\"",
        lastModified := some "Thu, 14 Nov 2024 05:10:00 GMT",
        cacheControl := some "max-age=300, immutable",
        contentType := some "application/json",
        body := "[\n  \x7b\"col1\":\"a\",\"col2\":1\x7d\n]\n" } := by rfl

example : httpHandler st0 "/m" "" = notFoundResponse := by rfl

/-! ## Helper lemmas about the refresh and serving paths -/

/-- After a failed refresh the key maps to nothing; other keys are
untouched. -/
theorem jobRun_qerr_cache (e : EndpointConfig) (tmpName : String) (nowNs : Int)
    (next : Option Int) (st : SysState) (k : String) :
    (jobRun e .qerr tmpName nowNs next st).cache k =
      if k = e.Path then none else st.cache k := by
  cases hfb : e.FileBacked <;> cases hold : st.cache e.Path <;>
    simp [jobRun, makeResult, Cache.loadAndDelete, hfb, hold]

/-- A failed refresh deletes the displaced entry's backing file. -/
theorem jobRun_qerr_fs_old (e : EndpointConfig) (tmpName : String) (nowNs : Int)
    (next : Option Int) (st : SysState) (old : EndpointResult)
    (hold : st.cache e.Path = some old) (hfile : old.File ≠ "") :
    (jobRun e .qerr tmpName nowNs next st).fs old.File = .absent := by
  cases hfb : e.FileBacked <;>
    simp [jobRun, makeResult, Cache.loadAndDelete, hfb, hold, cleanOld, hfile,
      FS.remove, FS.write]

/-- Serving a key with no entry produces the fixed 404 response. -/
theorem handler_absent (st : SysState) (path inm : String)
    (h : st.cache path = none) :
    httpHandler st path inm = notFoundResponse := by
  simp [httpHandler, Cache.load, h]

/-- C1: a refresh that fails (query execution or row serialization error)
removes the endpoint's entry from the cache and deletes its backing file
if it had one, so every subsequent `GET` for that key is the fixed 404
response rather than stale data; and if no refresh had ever succeeded
(key absent), the key stays absent. -/
theorem claim1_failed_refresh_invalidates (e : EndpointConfig) (tmpName : String)
    (nowNs : Int) (next : Option Int) (st : SysState) :
    (jobRun e .qerr tmpName nowNs next st).cache e.Path = none ∧
    (∀ inm, httpHandler (jobRun e .qerr tmpName nowNs next st) e.Path inm =
      notFoundResponse) ∧
    (∀ old, st.cache e.Path = some old → old.File ≠ "" →
      (jobRun e .qerr tmpName nowNs next st).fs old.File = .absent) := by
  refine ⟨by simp [jobRun_qerr_cache], fun inm => ?_, fun old hold hfile => ?_⟩
  · exact handler_absent _ _ _ (by simp [jobRun_qerr_cache])
  · exact jobRun_qerr_fs_old e tmpName nowNs next st old hold hfile

/-- Witness for C1 at a concrete input: a file-backed endpoint with a
previously published file-backed entry suffers a failed refresh; the entry
is gone, the `GET` yields 404, and the old blob file is deleted. -/
theorem claim1_witness :
    (jobRun epFile .qerr "/tmp/elly2" tNow (some tNext)
        (jobRun epFile (.ok colsC12 rowsA1) "/tmp/elly1" tNow (some tNext) st0)).cache
        "/f" = none ∧
    httpHandler
        (jobRun epFile .qerr "/tmp/elly2" tNow (some tNext)
          (jobRun epFile (.ok colsC12 rowsA1) "/tmp/elly1" tNow (some tNext) st0))
        "/f" "" = notFoundResponse ∧
    (jobRun epFile .qerr "/tmp/elly2" tNow (some tNext)
        (jobRun epFile (.ok colsC12 rowsA1) "/tmp/elly1" tNow (some tNext) st0)).fs
        "/tmp/elly1" = .absent := by
  have h := claim1_failed_refresh_invalidates epFile "/tmp/elly2" tNow (some tNext)
    (jobRun epFile (.ok colsC12 rowsA1) "/tmp/elly1" tNow (some tNext) st0)
  exact ⟨h.1, h.2.1 "", h.2.2 _ (by rfl) (by decide)⟩

/-- The state after one successful refresh of the file-backed endpoint. -/
def stAfterF : SysState :=
  jobRun epFile (.ok colsC12 rowsA1) "/tmp/elly1" tNow (some tNext) st0

/-- The entry `stAfterF` publishes for `/f`. -/
def pubEntryF : EndpointResult :=
  { QueriedAt := "Thu, 14 Nov 2024 05:10:00 GMT",
    CacheControl := "max-age=300, immutable",
    ETag := "W/\"4598223d08c4dd54\"", Result := "", File := "/tmp/elly1" }

example : stAfterF.cache "/f" = some pubEntryF := by rfl
example : stAfterF.fs "/tmp/elly1" =
    .plaintext "[\n  \x7b\"col1\":\"a\",\"col2\":1\x7d\n]\n" := by rfl

/-- C2 counterexample: the claim asserts that when a file-backed refresh
fails after the temporary file was created, the partial file is removed
from the filesystem.  It is not: `makeResult` returns the error without
any `os.Remove` of the just-created file, so after a failed refresh the
partial (undecryptable) file is still present on disk. -/
theorem claim2_counterexample :
    (jobRun epFile .qerr "/tmp/elly1" tNow (some tNext) st0).fs "/tmp/elly1" ≠
      BlobState.absent := by decide

/-- C2 (amended): when a file-backed refresh fails after the temporary
file was created, the refresh aborts without publishing any entry (the
key is left absent), and the partial file — which no published entry ever
references — remains on the filesystem in its undecryptable partial
state; the code does not remove it.  (The hypothesis that a previously
published file differs from the fresh temporary name reflects
`os.CreateTemp` returning a fresh name.) -/
theorem claim2_failed_filebacked_refresh (e : EndpointConfig)
    (he : e.FileBacked = true) (tmpName : String) (nowNs : Int)
    (next : Option Int) (st : SysState)
    (hcol : ∀ old, st.cache e.Path = some old → old.File ≠ tmpName) :
    (jobRun e .qerr tmpName nowNs next st).cache e.Path = none ∧
    (jobRun e .qerr tmpName nowNs next st).fs tmpName = .corrupt := by
  refine ⟨by simp [jobRun_qerr_cache], ?_⟩
  cases hold : st.cache e.Path with
  | none => simp [jobRun, makeResult, Cache.loadAndDelete, he, hold, FS.write]
  | some old =>
    have hne : old.File ≠ tmpName := hcol old hold
    by_cases hf : old.File = ""
    · simp [jobRun, makeResult, Cache.loadAndDelete, he, hold, cleanOld, hf, FS.write]
    · simp [jobRun, makeResult, Cache.loadAndDelete, he, hold, cleanOld, hf,
        FS.remove, FS.write, Ne.symm hne]

/-- Witness for C2 (amended) at a concrete input: the file-backed
endpoint already has a published entry backed by `/tmp/elly1`; a refresh
using fresh temporary file `/tmp/elly2` fails; the key becomes absent and
the partial file `/tmp/elly2` is still on disk. -/
theorem claim2_witness :
    (jobRun epFile .qerr "/tmp/elly2" tNow (some tNext) stAfterF).cache "/f" = none ∧
    (jobRun epFile .qerr "/tmp/elly2" tNow (some tNext) stAfterF).fs "/tmp/elly2" =
      .corrupt := by
  refine claim2_failed_filebacked_refresh epFile (by decide) "/tmp/elly2" tNow
    (some tNext) stAfterF ?_
  intro old hold
  have hpe : stAfterF.cache epFile.Path = some pubEntryF := by rfl
  rw [hpe] at hold
  cases hold
  decide

/-- C3 counterexample: the claim asserts the freshness window is
non-negative in all cases and is 0 when the scheduler cannot supply a next
fire time.  In the code, `int(Next.Sub(now).Seconds())` is not clamped:
with no next fire time `Entry.Next` is the zero `time.Time`, the
saturated subtraction yields the minimum `time.Duration`, and the
published directive is `max-age=-9223372036, immutable` — negative, and
not 0. -/
theorem claim3_counterexample :
    maxAgeOf none tNow = -9223372036 ∧
    ((jobRun epMem (.ok colsC12 rowsA1) "" tNow none st0).cache "/m").map
        EndpointResult.CacheControl = some "max-age=-9223372036, immutable" ∧
    ¬ (0 ≤ maxAgeOf none tNow) := by
  refine ⟨by rfl, by rfl, by decide⟩

/-- C3 (amended): the `Cache-Control` directive of every successfully
published entry is `max-age=<w>, immutable` where `w` is the number of
seconds from now to the scheduler's next fire time, truncated toward
zero after saturating the duration to the `int64` nanosecond range.  `w`
is non-negative whenever a next fire time exists, is not in the past and
is within the duration range; when the scheduler cannot supply a next
fire time, `w` is the saturated value `-9223372036` (not 0, and
negative). -/
theorem claim3_freshness_window (e : EndpointConfig) (cols : List String)
    (rows : List (List JValue)) (tmpName : String) (nowNs : Int)
    (next : Option Int) (st : SysState) :
    ((jobRun e (.ok cols rows) tmpName nowNs next st).cache e.Path).map
        EndpointResult.CacheControl =
      some ("max-age=" ++ toString (maxAgeOf next nowNs) ++ ", immutable") ∧
    (∀ n, next = some n → nowNs ≤ n → n - nowNs ≤ maxDuration →
      maxAgeOf next nowNs = Int.tdiv (n - nowNs) nsPerSec ∧
      0 ≤ maxAgeOf next nowNs) ∧
    (next = none → 0 ≤ nowNs → maxAgeOf next nowNs = -9223372036) := by
  refine ⟨?_, ?_, ?_⟩
  · cases hfb : e.FileBacked <;> cases hold : st.cache e.Path <;>
      simp [jobRun, makeResult, Cache.swap, hfb, hold]
  · intro n hn hle hmax
    subst hn
    have hsat : satDur (n - nowNs) = n - nowNs := by
      unfold satDur
      rw [if_neg (by unfold minDuration; omega), if_neg (by omega)]
    have heq : maxAgeOf (some n) nowNs = Int.tdiv (n - nowNs) nsPerSec := by
      unfold maxAgeOf nextFireNs
      rw [hsat]
    refine ⟨heq, ?_⟩
    rw [heq, Int.tdiv_eq_ediv (by omega) (by unfold nsPerSec; omega)]
    exact Int.ediv_nonneg (by omega) (by unfold nsPerSec; omega)
  · intro hn hnow
    subst hn
    have hlt : zeroTimeNs - nowNs < minDuration := by
      unfold zeroTimeNs minDuration nsPerSec; omega
    have hsat : satDur (nextFireNs none - nowNs) = minDuration := by
      show satDur (zeroTimeNs - nowNs) = minDuration
      unfold satDur
      rw [if_pos hlt]
    unfold maxAgeOf
    rw [hsat]
    rfl

/-- Witness for C3 (amended) at a concrete input: a next fire time 300
seconds away yields `max-age=300, immutable` and a non-negative window. -/
theorem claim3_witness :
    ((jobRun epMem (.ok colsC12 rowsA1) "" tNow (some tNext) st0).cache "/m").map
        EndpointResult.CacheControl = some "max-age=300, immutable" ∧
    0 ≤ maxAgeOf (some tNext) tNow := by
  have h := claim3_freshness_window epMem colsC12 rowsA1 "" tNow (some tNext) st0
  exact ⟨h.1.trans (by rfl), (h.2.1 tNext rfl (by decide) (by decide)).2⟩

/-- After a successful refresh, the key holds exactly the freshly built
entry (ETag over the fingerprint, `Last-Modified` and `Cache-Control`
strings, and payload-or-file according to the storage mode); every other
key is untouched. -/
theorem jobRun_ok_cache (e : EndpointConfig) (cols : List String)
    (rows : List (List JValue)) (tmpName : String) (nowNs : Int)
    (next : Option Int) (st : SysState) (k : String) :
    (jobRun e (.ok cols rows) tmpName nowNs next st).cache k =
      if k = e.Path then
        some { QueriedAt := fmtHTTPTime nowNs
               CacheControl := "max-age=" ++ toString (maxAgeOf next nowNs) ++ ", immutable"
               ETag := etagOf (queryDigest e.RowFormat cols rows)
               Result := if e.FileBacked then "" else serializeBody e.RowFormat cols rows
               File := if e.FileBacked then tmpName else "" }
      else st.cache k := by
  cases hfb : e.FileBacked <;> cases hold : st.cache e.Path <;>
    simp [jobRun, makeResult, Cache.swap, hfb, hold]

/-- After a successful file-backed refresh, the fresh temporary file holds
the (decryptable) serialized payload. -/
theorem jobRun_ok_fs_tmp (e : EndpointConfig) (cols : List String)
    (rows : List (List JValue)) (tmpName : String) (nowNs : Int)
    (next : Option Int) (st : SysState) (he : e.FileBacked = true)
    (hcol : ∀ old, st.cache e.Path = some old → old.File ≠ tmpName) :
    (jobRun e (.ok cols rows) tmpName nowNs next st).fs tmpName =
      .plaintext (serializeBody e.RowFormat cols rows) := by
  cases hold : st.cache e.Path with
  | none => simp [jobRun, makeResult, Cache.swap, he, hold, FS.write]
  | some old =>
    have hne : old.File ≠ tmpName := hcol old hold
    by_cases hf : old.File = ""
    · simp [jobRun, makeResult, Cache.swap, he, hold, cleanOld, hf, FS.write]
    · simp [jobRun, makeResult, Cache.swap, he, hold, cleanOld, hf,
        FS.remove, FS.write, Ne.symm hne]

/-- A successful in-memory refresh does not touch the filesystem except
for deleting the displaced entry's file. -/
theorem jobRun_ok_fs_mem (e : EndpointConfig) (cols : List String)
    (rows : List (List JValue)) (tmpName : String) (nowNs : Int)
    (next : Option Int) (st : SysState) (he : e.FileBacked = false)
    (name : String)
    (hcol : ∀ old, st.cache e.Path = some old → old.File ≠ name) :
    (jobRun e (.ok cols rows) tmpName nowNs next st).fs name = st.fs name := by
  cases hold : st.cache e.Path with
  | none => simp [jobRun, makeResult, Cache.swap, he, hold]
  | some old =>
    have hne : old.File ≠ name := hcol old hold
    by_cases hf : old.File = ""
    · simp [jobRun, makeResult, Cache.swap, he, hold, cleanOld, hf]
    · simp [jobRun, makeResult, Cache.swap, he, hold, cleanOld, hf,
        FS.remove, FS.write, Ne.symm hne]

/-- The serialized payload always starts with `"[\n"` and so is never the
empty byte string. -/
theorem serializeBody_ne_empty (fmt : String) (cols : List String)
    (rows : List (List JValue)) : serializeBody fmt cols rows ≠ "" := by
  intro h
  have hd := congrArg String.data h
  simp [serializeBody, String.data_append] at hd

/-- C4: every entry published by a refresh has exactly one of the
in-memory payload and the backing-file name set: file-backed mode yields
a file name (the fresh temporary file) and empty payload bytes, in-memory
mode yields non-empty payload bytes and an empty file name.  The cache is
only ever updated by replacing the key's entry with this freshly
constructed record (other keys are untouched); published entries are
never mutated in place — `httpHandler` only reads them, as the model's
serving path takes no state update at all. -/
theorem claim4_entry_invariant (e : EndpointConfig) (cols : List String)
    (rows : List (List JValue)) (tmpName : String) (nowNs : Int)
    (next : Option Int) (st : SysState) (htmp : tmpName ≠ "") :
    ∃ r : EndpointResult,
      (jobRun e (.ok cols rows) tmpName nowNs next st).cache e.Path = some r ∧
      ((r.File = "" ∧ r.Result ≠ "") ∨ (r.File ≠ "" ∧ r.Result = "")) ∧
      (e.FileBacked = true → r.File = tmpName ∧ r.Result = "") ∧
      (e.FileBacked = false →
        r.File = "" ∧ r.Result = serializeBody e.RowFormat cols rows) ∧
      (∀ k, k ≠ e.Path →
        (jobRun e (.ok cols rows) tmpName nowNs next st).cache k = st.cache k) := by
  refine ⟨_, (jobRun_ok_cache e cols rows tmpName nowNs next st e.Path).trans
    (if_pos rfl), ?_, ?_, ?_, ?_⟩
  · cases hfb : e.FileBacked
    · exact Or.inl ⟨by simp [hfb], by simp [hfb]; exact serializeBody_ne_empty _ _ _⟩
    · exact Or.inr ⟨by simp [hfb]; exact htmp, by simp [hfb]⟩
  · intro hfb; exact ⟨by simp [hfb], by simp [hfb]⟩
  · intro hfb; exact ⟨by simp [hfb], by simp [hfb]⟩
  · intro k hk
    exact (jobRun_ok_cache e cols rows tmpName nowNs next st k).trans (if_neg hk)

/-- Witness for C4 at concrete inputs: the file-backed scenario refresh
publishes an entry with `File = "/tmp/elly1"` and no in-memory bytes. -/
theorem claim4_witness :
    ∃ r : EndpointResult,
      stAfterF.cache "/f" = some r ∧
      ((r.File = "" ∧ r.Result ≠ "") ∨ (r.File ≠ "" ∧ r.Result = "")) := by
  obtain ⟨r, hr, hinv, -, -, -⟩ :=
    claim4_entry_invariant epFile colsC12 rowsA1 "/tmp/elly1" tNow (some tNext) st0
      (by decide)
  exact ⟨r, hr, hinv⟩

/-- C5: when the key has a published entry and the request's
`If-None-Match` equals the entry's fingerprint-derived validator, the
response is `304 Not Modified` with the `ETag`, `Last-Modified` and
`Cache-Control` headers set and an empty body.  The serving path reads
the state and never updates it (`httpHandler` in the model returns only a
response), so re-serving the same entry any number of times yields this
same response — the second conjunct states the repeat-invariance
explicitly. -/
theorem claim5_conditional_304 (st : SysState) (path inm : String)
    (r : EndpointResult) (hload : st.cache path = some r)
    (hmatch : inm = r.ETag) :
    httpHandler st path inm =
      { code := 304, etag := some r.ETag, lastModified := some r.QueriedAt,
        cacheControl := some r.CacheControl, contentType := none, body := "" } ∧
    (∀ inm', inm' = r.ETag → httpHandler st path inm' = httpHandler st path inm) := by
  have h : ∀ x, x = r.ETag → httpHandler st path x =
      { code := 304, etag := some r.ETag, lastModified := some r.QueriedAt,
        cacheControl := some r.CacheControl, contentType := none, body := "" } := by
    intro x hx
    simp [httpHandler, Cache.load, hload, hx]
  exact ⟨h inm hmatch, fun inm' h' => (h inm' h').trans (h inm hmatch).symm⟩

/-- Witness for C5 at a concrete input: serving the published file-backed
scenario entry with the matching validator yields the 304 response. -/
theorem claim5_witness :
    httpHandler stAfterF "/f" "W/\"4598223d08c4dd54\"" =
      { code := 304, etag := some "W/\"4598223d08c4dd54\"",
        lastModified := some "Thu, 14 Nov 2024 05:10:00 GMT",
        cacheControl := some "max-age=300, immutable",
        contentType := none, body := "" } := by
  exact (claim5_conditional_304 stAfterF "/f" "W/\"4598223d08c4dd54\"" pubEntryF
    (by rfl) (by rfl)).1.trans (by rfl)

/-- C6: after a successful refresh, a `GET` whose `If-None-Match` does
not match the entry's validator is answered `200 OK` with `ETag` the weak
validator `W/"<hex-fingerprint>"`, `Last-Modified` the query-completion
time truncated to whole seconds in UTC HTTP date format, `Cache-Control`
`max-age=<freshness window>, immutable`, `Content-Type`
`application/json`, and the body is exactly the serialized payload —
served from memory for an in-memory endpoint, or read back (decrypted)
from the blob file for a file-backed endpoint. -/
theorem claim6_unconditional_200 (e : EndpointConfig) (cols : List String)
    (rows : List (List JValue)) (tmpName : String) (nowNs : Int)
    (next : Option Int) (st : SysState) (inm : String)
    (htmp : tmpName ≠ "")
    (hcol : ∀ old, st.cache e.Path = some old → old.File ≠ tmpName)
    (hinm : inm ≠ etagOf (queryDigest e.RowFormat cols rows)) :
    httpHandler (jobRun e (.ok cols rows) tmpName nowNs next st) e.Path inm =
      { code := 200,
        etag := some (etagOf (queryDigest e.RowFormat cols rows)),
        lastModified := some (fmtHTTPTime nowNs),
        cacheControl :=
          some ("max-age=" ++ toString (maxAgeOf next nowNs) ++ ", immutable"),
        contentType := some "application/json",
        body := serializeBody e.RowFormat cols rows } := by
  have hc := jobRun_ok_cache e cols rows tmpName nowNs next st e.Path
  rw [if_pos rfl] at hc
  cases hfb : e.FileBacked
  · simp only [hfb, if_false] at hc
    simp [httpHandler, Cache.load, hc, hinm]
  · simp only [hfb, if_true] at hc
    have hfs := jobRun_ok_fs_tmp e cols rows tmpName nowNs next st hfb hcol
    simp [httpHandler, Cache.load, hc, hinm, htmp, hfs]

/-- Witness for C6 at a concrete input: the file-backed scenario refresh
followed by an unconditional `GET` returns the full 200 response with the
decrypted file contents as body. -/
theorem claim6_witness :
    httpHandler stAfterF "/f" "" =
      { code := 200, etag := some "W/\"4598223d08c4dd54\"",
        lastModified := some "Thu, 14 Nov 2024 05:10:00 GMT",
        cacheControl := some "max-age=300, immutable",
        contentType := some "application/json",
        body := "[\n  \x7b\"col1\":\"a\",\"col2\":1\x7d\n]\n" } := by
  have h := claim6_unconditional_200 epFile colsC12 rowsA1 "/tmp/elly1" tNow
    (some tNext) st0 "" (by decide)
    (fun old hold => by simp [st0] at hold)
    (by rw [show etagOf (queryDigest epFile.RowFormat colsC12 rowsA1) =
        "W/\"4598223d08c4dd54\"" from rfl]; decide)
  exact h.trans (by rfl)

/-- When no pair in the map has key `k`, Go's `m[k] = v` appends. -/
theorem mapSet_not_mem (m : List (String × JValue)) (k : String) (v : JValue)
    (h : ∀ p ∈ m, p.1 ≠ k) : mapSet m k v = m ++ [(k, v)] := by
  unfold mapSet
  rw [if_neg]
  simp only [List.any_eq_true, decide_eq_true_eq, not_exists]
  intro p hp
  exact h p hp.1 hp.2

/-- Folding Go map assignment over pairs with pairwise-distinct keys (also
distinct from the accumulator's keys) just appends the pairs in order. -/
theorem foldl_mapSet_append (ps : List (String × JValue)) :
    ∀ acc : List (String × JValue),
      (acc.map Prod.fst ++ ps.map Prod.fst).Nodup →
      ps.foldl (fun m p => mapSet m p.1 p.2) acc = acc ++ ps := by
  induction ps with
  | nil => intro acc _; simp
  | cons p ps ih =>
    intro acc h
    have h' : (acc.map Prod.fst ++ p.1 :: ps.map Prod.fst).Nodup := by
      simpa only [List.map_cons] using h
    have h1 : (p.1 :: (acc.map Prod.fst ++ ps.map Prod.fst)).Nodup :=
      List.nodup_middle.mp h'
    have hk : ∀ q ∈ acc, q.1 ≠ p.1 := by
      intro q hq hqe
      exact (List.nodup_cons.mp h1).1
        (List.mem_append_left _ (hqe ▸ List.mem_map_of_mem Prod.fst hq))
    have h2 : ((acc ++ [p]).map Prod.fst ++ ps.map Prod.fst).Nodup := by
      simpa only [List.map_append, List.map_cons, List.map_nil, List.append_assoc,
        List.singleton_append] using h'
    rw [List.foldl_cons, mapSet_not_mem acc p.1 p.2 hk]
    have h3 := ih (acc ++ [p]) h2
    simpa [List.append_assoc] using h3

/-- With pairwise-distinct column names (and one value per column), the
map `query` builds for an object row binds exactly the columns to the
row's values. -/
theorem buildRowMap_eq_zip (cols : List String) (vals : List JValue)
    (hnd : cols.Nodup) (hlen : cols.length ≤ vals.length) :
    buildRowMap cols vals = cols.zip vals := by
  unfold buildRowMap
  have hkeys : (List.zip cols vals).map Prod.fst = cols := List.map_fst_zip cols vals hlen
  have hnd' : (([] : List (String × JValue)).map Prod.fst ++
      (cols.zip vals).map Prod.fst).Nodup := by
    rw [List.map_nil, List.nil_append, hkeys]
    exact hnd
  have h := foldl_mapSet_append (cols.zip vals) [] hnd'
  simpa using h

/-- Insertion keeps the pairs, as a permutation. -/
theorem insertSorted_perm (p : String × JValue) (l : List (String × JValue)) :
    List.Perm (insertSorted p l) (p :: l) := by
  induction l with
  | nil => exact List.Perm.refl _
  | cons q rest ih =>
    unfold insertSorted
    by_cases h : strLe p.1 q.1 = true
    · rw [if_pos h]
    · rw [if_neg h]
      exact (List.Perm.cons q ih).trans (List.Perm.swap p q rest)

/-- Sorting the map pairs for JSON output is a permutation. -/
theorem sortPairs_perm (l : List (String × JValue)) :
    List.Perm (sortPairs l) l := by
  induction l with
  | nil => exact List.Perm.refl _
  | cons p rest ih =>
    unfold sortPairs
    exact (insertSorted_perm p (sortPairs rest)).trans (List.Perm.cons p ih)

/-- C7 counterexample: the claim's scenario asserts the serialized body is
exactly `[{"col1":"a","col2":1}]`; the code pretty-prints (`"[\n"`, rows
indented two spaces and separated by `",\n"`, `"\n]\n"`), so the actual
body bytes differ (while denoting the same JSON value). -/
theorem claim7_counterexample :
    serializeBody "object" ["col1", "col2"] [[.jstr "a", .jnum 1]] ≠
      "[\x7b\"col1\":\"a\",\"col2\":1\x7d]" := by decide

/-- C7 (amended): the serialized payload is a JSON array of rows —
pretty-printed with each row on its own two-space-indented line — where a
row under `rowformat=array` is the JSON array of the column values in
order, and under `rowformat=object` is a JSON object whose key/value
pairs are exactly the column names (from the result metadata) paired
with the row's values (emitted in sorted key order, as Go's
`encoding/json` does); in particular the object-format row `("a",1)`
under columns `col1,col2` yields the body `[\n  {"col1":"a","col2":1}\n]\n`. -/
theorem claim7_row_serialization (cols : List String) (vals : List JValue)
    (hnd : cols.Nodup) (hlen : cols.length ≤ vals.length) :
    marshalRow "array" cols vals =
      "[" ++ String.intercalate "," (vals.map marshalValue) ++ "]" ∧
    (∀ fmt, fmt ≠ "array" →
      marshalRow fmt cols vals =
        "\x7b" ++ String.intercalate ","
          ((sortPairs (cols.zip vals)).map
            (fun p => jsonString p.1 ++ ":" ++ marshalValue p.2)) ++ "\x7d" ∧
      List.Perm (sortPairs (cols.zip vals)) (cols.zip vals)) ∧
    serializeBody "object" ["col1", "col2"] [[.jstr "a", .jnum 1]] =
      "[\n  \x7b\"col1\":\"a\",\"col2\":1\x7d\n]\n" := by
  refine ⟨by simp [marshalRow, marshalArrayRow], ?_, by rfl⟩
  intro fmt hfmt
  constructor
  · unfold marshalRow marshalObjRow
    rw [if_neg hfmt, buildRowMap_eq_zip cols vals hnd hlen]
  · exact sortPairs_perm _

/-- Witness for C7 (amended) at the scenario input. -/
theorem claim7_witness :
    marshalRow "object" ["col1", "col2"] [.jstr "a", .jnum 1] =
      "\x7b" ++ String.intercalate ","
        ((sortPairs (["col1", "col2"].zip [JValue.jstr "a", JValue.jnum 1])).map
          (fun p => jsonString p.1 ++ ":" ++ marshalValue p.2)) ++ "\x7d" ∧
    serializeBody "object" ["col1", "col2"] [[.jstr "a", .jnum 1]] =
      "[\n  \x7b\"col1\":\"a\",\"col2\":1\x7d\n]\n" := by
  have h := claim7_row_serialization ["col1", "col2"] [.jstr "a", .jnum 1]
    (by decide) (by decide)
  exact ⟨(h.2.1 "object" (by decide)).1, h.2.2⟩

/-- C8 counterexample: the claim asserts any single-byte change in any
row changes the fingerprint.  With object row format and duplicate column
names (legal SQL: `SELECT 1 AS a, 2 AS a`), the later column overwrites
the earlier in the row's `map[string]any`, so changing the shadowed value
(`1` to `9`, one byte) leaves the marshaled row — and hence the
fingerprint — unchanged. -/
theorem claim8_counterexample :
    ([[JValue.jnum 1, JValue.jnum 2]] : List (List JValue)) ≠
      [[JValue.jnum 9, JValue.jnum 2]] ∧
    queryDigest "object" ["a", "a"] [[.jnum 1, .jnum 2]] =
      queryDigest "object" ["a", "a"] [[.jnum 9, .jnum 2]] := by
  exact ⟨by decide, by rfl⟩

/-- C8 (amended): the fingerprint (and hence the ETag) is a deterministic
function of the row format and the query result alone — identical rows in
identical order yield the same `ETag` across refreshes, independent of
storage mode, temporary file name, or filesystem state.  A change in a
row changes the fingerprint only if it changes the row's JSON marshaling:
under object row format with duplicate column names the shadowed value
does not take part at all, so changing it never changes the
fingerprint. -/
theorem claim8_fingerprint_deterministic (e1 e2 : EndpointConfig)
    (hfmt : e1.RowFormat = e2.RowFormat) (cols : List String)
    (rows : List (List JValue)) (tmp1 tmp2 : String) (fs1 fs2 : FS) :
    ((makeResult e1 (.ok cols rows) tmp1 fs1).1).map EndpointResult.ETag =
      ((makeResult e2 (.ok cols rows) tmp2 fs2).1).map EndpointResult.ETag ∧
    (∀ v v' w : JValue,
      queryDigest "object" ["a", "a"] [[v, w]] =
        queryDigest "object" ["a", "a"] [[v', w]]) := by
  constructor
  · cases hfb1 : e1.FileBacked <;> cases hfb2 : e2.FileBacked <;>
      simp [makeResult, hfb1, hfb2, hfmt]
  · intro v v' w
    rfl

/-- Witness for C8 (amended) at concrete inputs: the scenario rows
refreshed through the in-memory endpoint and through the file-backed
endpoint (same row format) produce the same `ETag`. -/
theorem claim8_witness :
    ((makeResult epMem (.ok colsC12 rowsA1) "" st0.fs).1).map EndpointResult.ETag =
      ((makeResult epFile (.ok colsC12 rowsA1) "/tmp/elly1" st0.fs).1).map
        EndpointResult.ETag := by
  exact (claim8_fingerprint_deterministic epMem epFile (by rfl) colsC12 rowsA1
    "" "/tmp/elly1" st0.fs st0.fs).1

/-- C9: failure responses carry non-cacheable metadata and leak no
internal detail.  A request whose key has no entry gets the fixed 404
response; a request whose entry's backing file cannot be opened (absent)
or decrypted (corrupt) gets the fixed 500 response.  Both carry
`Cache-Control: no-cache, no-store`, and both bodies are the fixed
strings written by `http.NotFound` / `http.Error` — the same constants
for every state, path and entry, so no file path or SQL text can occur
in them (the file name and error detail go only to the server log). -/
theorem claim9_failure_responses (st : SysState) (path inm : String) :
    (st.cache path = none → httpHandler st path inm = notFoundResponse) ∧
    (∀ r, st.cache path = some r → inm ≠ r.ETag → r.File ≠ "" →
      (st.fs r.File = .absent ∨ st.fs r.File = .corrupt) →
      httpHandler st path inm = serverErrorResponse) ∧
    notFoundResponse.cacheControl = some noStore ∧
    serverErrorResponse.cacheControl = some noStore ∧
    notFoundResponse.code = 404 ∧ serverErrorResponse.code = 500 ∧
    notFoundResponse.body = "404 page not found\n" ∧
    serverErrorResponse.body = "Internal Server Error\n" := by
  refine ⟨fun h => handler_absent st path inm h, ?_, rfl, rfl, rfl, rfl, rfl, rfl⟩
  intro r hr hinm hfile hfs
  rcases hfs with hfs | hfs <;>
    simp [httpHandler, Cache.load, hr, hinm, hfile, hfs]

/-- Witness for C9 at concrete inputs: a key with no entry yields the 404
response, and the published file-backed entry whose blob file has
disappeared from disk yields the 500 response. -/
theorem claim9_witness :
    httpHandler st0 "/nope" "" = notFoundResponse ∧
    httpHandler { cache := stAfterF.cache, fs := fun _ => .absent } "/f" "" =
      serverErrorResponse := by
  have h1 := (claim9_failure_responses st0 "/nope" "").1 (by rfl)
  have h2 := (claim9_failure_responses
      { cache := stAfterF.cache, fs := fun _ => .absent } "/f" "").2.1
    pubEntryF (by rfl) (by decide) (by decide) (Or.inl rfl)
  exact ⟨h1, h2⟩

/-- C10: an endpoint whose `rowformat` is left empty serializes rows as
JSON objects keyed by column name: of the values accepted by
`EndpointConfig.Validate` (`""`, `"array"`, `"object"`), only the exact
string `"array"` selects array-of-values rows, and `""` and `"object"`
behave identically (object rows). -/
theorem claim10_rowformat_default (fmt : String) (hok : rowFormatOK fmt = true)
    (hne : fmt ≠ "array") :
    (fmt = "" ∨ fmt = "object") ∧
    (∀ cols vals, marshalRow fmt cols vals = marshalObjRow cols vals) ∧
    (∀ cols rows, serializeBody fmt cols rows = serializeBody "object" cols rows) ∧
    marshalRow "" ["c"] [.jnum 1] = "\x7b\"c\":1\x7d" ∧
    marshalRow "array" ["c"] [.jnum 1] = "[1]" := by
  have hm : ∀ cols vals, marshalRow fmt cols vals = marshalObjRow cols vals := by
    intro cols vals
    unfold marshalRow
    rw [if_neg hne]
  have hm2 : ∀ cols vals, marshalRow "object" cols vals = marshalObjRow cols vals := by
    intro cols vals
    unfold marshalRow
    rw [if_neg (by decide)]
  refine ⟨?_, hm, ?_, by rfl, by rfl⟩
  · unfold rowFormatOK at hok
    simp only [Bool.or_eq_true, decide_eq_true_eq] at hok
    rcases hok with (h | h) | h
    · exact Or.inl h
    · exact absurd h hne
    · exact Or.inr h
  · intro cols rows
    unfold serializeBody
    simp only [hm, hm2]

/-- Witness for C10 at a concrete input: the empty row format is accepted
by validation, differs from `"array"`, and serializes the scenario row as
a JSON object. -/
theorem claim10_witness :
    (("" : String) = "" ∨ ("" : String) = "object") ∧
    marshalRow "" colsC12 [.jstr "a", .jnum 1] =
      marshalObjRow colsC12 [.jstr "a", .jnum 1] := by
  have h := claim10_rowformat_default "" (by decide) (by decide)
  exact ⟨h.1, h.2.1 colsC12 [.jstr "a", .jnum 1]⟩

end Ellycache
